import Mathlib

/-!
Verification of the memcached binary-protocol client connection layer
(server_conn.go and its earlier revision in part_000).

The Go source is shallowly embedded: strings and byte buffers become
lists of naturals (each < 256 where produced by the code), Go machine
integers become naturals reduced modulo 2 to the relevant power at the
points where Go truncates, the heterogeneous extras slices become closed
tagged variants, and the mutation of a message by send and recv becomes
explicit state passing.  The network is modelled as a byte stream read
by recv and a byte list produced by send; connection teardown is a
counter of socket closes plus a connected flag.
-/

namespace MC

set_option autoImplicit false

/-! ## Big-endian byte primitives (encoding/binary.BigEndian) -/

/-- PutUint16: two big-endian bytes of a value (Go truncates each byte). -/
def be16 (v : Nat) : List Nat := [v / 2 ^ 8 % 256, v % 256]

/-- PutUint32: four big-endian bytes. -/
def be32 (v : Nat) : List Nat :=
  [v / 2 ^ 24 % 256, v / 2 ^ 16 % 256, v / 2 ^ 8 % 256, v % 256]

/-- PutUint64: eight big-endian bytes. -/
def be64 (v : Nat) : List Nat :=
  [v / 2 ^ 56 % 256, v / 2 ^ 48 % 256, v / 2 ^ 40 % 256, v / 2 ^ 32 % 256,
   v / 2 ^ 24 % 256, v / 2 ^ 16 % 256, v / 2 ^ 8 % 256, v % 256]

/-- Uint16: read two big-endian bytes from the front of a buffer. -/
def rd16 (b : List Nat) : Nat := b.getD 0 0 * 2 ^ 8 + b.getD 1 0

/-- Uint32: read four big-endian bytes from the front of a buffer. -/
def rd32 (b : List Nat) : Nat :=
  b.getD 0 0 * 2 ^ 24 + b.getD 1 0 * 2 ^ 16 + b.getD 2 0 * 2 ^ 8 + b.getD 3 0

/-- Uint64: read eight big-endian bytes from the front of a buffer. -/
def rd64 (b : List Nat) : Nat :=
  b.getD 0 0 * 2 ^ 56 + b.getD 1 0 * 2 ^ 48 + b.getD 2 0 * 2 ^ 40 + b.getD 3 0 * 2 ^ 32 +
  b.getD 4 0 * 2 ^ 24 + b.getD 5 0 * 2 ^ 16 + b.getD 6 0 * 2 ^ 8 + b.getD 7 0

theorem length_be16 (v : Nat) : (be16 v).length = 2 := rfl

theorem length_be32 (v : Nat) : (be32 v).length = 4 := rfl

theorem length_be64 (v : Nat) : (be64 v).length = 8 := rfl

theorem rd16_be16_append (v : Nat) (r : List Nat) : rd16 (be16 v ++ r) = v % 2 ^ 16 := by
  simp only [be16, rd16, List.cons_append, List.getD_cons_zero, List.getD_cons_succ]
  omega

theorem rd32_be32_append (v : Nat) (r : List Nat) : rd32 (be32 v ++ r) = v % 2 ^ 32 := by
  simp only [be32, rd32, List.cons_append, List.getD_cons_zero, List.getD_cons_succ]
  omega

theorem rd64_be64_append (v : Nat) (r : List Nat) : rd64 (be64 v ++ r) = v % 2 ^ 64 := by
  simp only [be64, rd64, List.cons_append, List.getD_cons_zero, List.getD_cons_succ]
  omega

/-! ## Status codes and errors

Modelled from the spec: the Error type, the status constants and the
newError and wrapError helpers live in mc.go, which is not part of the
provided sources.  The spec fixes their contract: an Error carries a
status; protocol statuses include success(0) and unknown-command; the
client-side statuses NetworkError and AuthUnknown are distinct from all
protocol statuses; newError yields no error exactly for status 0 and
otherwise an error holding that status; wrapError builds an error with
the given status. -/

def StatusOK : Nat := 0

def StatusNotFound : Nat := 1

def StatusUnknownCommand : Nat := 0x81

/-- Modelled from the spec: client-side pseudo-status for dial, read,
write and deadline failures; distinct from every on-wire status. -/
def StatusNetworkError : Nat := 0x100

/-- Modelled from the spec: client-side pseudo-status for an unknown
SASL mechanism list. -/
def StatusAuthUnknown : Nat := 0x101

/-- Modelled from the spec: the library error value, reduced to the
status that the connection layer inspects. -/
structure MCError where
  Status : Nat
deriving DecidableEq

/-- Modelled from the spec: wrapError attaches a status to an underlying
cause; only the status is observable to the connection layer. -/
def wrapError (s : Nat) : MCError := ⟨s⟩

/-- Modelled from the spec: newError maps status 0 to no error and any
other status to an error carrying it. -/
def newError (status : Nat) : Option MCError :=
  if status = StatusOK then none else some ⟨status⟩

/-- The error produced on every malformed-frame and I/O failure path of
recv and send (wrapError with StatusNetworkError). -/
def netErr : MCError := wrapError StatusNetworkError

/-! ## Extras: the heterogeneous iextras / oextras slices

iextras elements are Go interface values holding uint8 / uint16 /
uint32 / uint64; any other dynamic type takes the default branch of the
type switch (a runtime panic in send and sizeOfExtras).  oextras
elements are pointers to such integers; the address field models
pointer identity, the pointed-to cell itself lives outside the msg. -/

inductive ExtraIn where
  | u8 (v : Nat)
  | u16 (v : Nat)
  | u32 (v : Nat)
  | u64 (v : Nat)
  | unsupported
deriving DecidableEq

inductive ExtraOut where
  | p8 (addr : Nat)
  | p16 (addr : Nat)
  | p32 (addr : Nat)
  | p64 (addr : Nat)
  | unsupported
deriving DecidableEq

/-- Byte width of a supported request extra (unsupported panics in Go;
0 here is never used on the panic-free paths). -/
def widthIn : ExtraIn → Nat
  | .u8 _ => 1
  | .u16 _ => 2
  | .u32 _ => 4
  | .u64 _ => 8
  | .unsupported => 0

/-- Byte width of a supported response-extras destination. -/
def widthOut : ExtraOut → Nat
  | .p8 _ => 1
  | .p16 _ => 2
  | .p32 _ => 4
  | .p64 _ => 8
  | .unsupported => 0

/-- The integer payload of a request extra. -/
def extraInVal : ExtraIn → Nat
  | .u8 v => v
  | .u16 v => v
  | .u32 v => v
  | .u64 v => v
  | .unsupported => 0

/-- The destination address of a response-extras descriptor. -/
def addrOf : ExtraOut → Nat
  | .p8 a => a
  | .p16 a => a
  | .p32 a => a
  | .p64 a => a
  | .unsupported => 0

/-- A request extra is one of the four supported unsigned widths. -/
def supportedIn : ExtraIn → Bool
  | .unsupported => false
  | _ => true

/-- A supported request extra whose value fits its declared width, as
the Go types uint8..uint64 guarantee. -/
def extraInWF : ExtraIn → Bool
  | .u8 v => v < 2 ^ 8
  | .u16 v => v < 2 ^ 16
  | .u32 v => v < 2 ^ 32
  | .u64 v => v < 2 ^ 64
  | .unsupported => false

/-- A destination of the same width as a given request extra. -/
def sameWidth : ExtraIn → ExtraOut → Bool
  | .u8 _, .p8 _ => true
  | .u16 _, .p16 _ => true
  | .u32 _, .p32 _ => true
  | .u64 _, .p64 _ => true
  | _, _ => false

/-- Destinations of the same widths, in the same declared order, as a
list of request extras. -/
def sameWidths : List ExtraIn → List ExtraOut → Bool
  | [], [] => true
  | i :: is, o :: os => sameWidth i o && sameWidths is os
  | _, _ => false

/-- Exact total byte width of a list of request extras. -/
def extrasWidthIn : List ExtraIn → Nat
  | [] => 0
  | e :: es => widthIn e + extrasWidthIn es

/-! ## Go slices

A Go slice is its element contents plus spare capacity beyond the
length.  backupMsg and restoreMsg branch on the capacity; the contents
are what every claim observes. -/

structure GoSlice (α : Type) where
  data : List α
  extraCap : Nat
deriving DecidableEq

/-- The reuse-or-reallocate copy in backupMsg and restoreMsg: slice the
destination down (or make a fresh array) and copy the source in. -/
def copyInto {α : Type} (dst : GoSlice α) (src : List α) : GoSlice α :=
  if src.length ≤ dst.data.length + dst.extraCap then
    { data := src, extraCap := dst.data.length + dst.extraCap - src.length }
  else
    { data := src, extraCap := 0 }

theorem copyInto_data {α : Type} (dst : GoSlice α) (src : List α) :
    (copyInto dst src).data = src := by
  unfold copyInto; split <;> rfl

/-- A nil Go slice. -/
def goNil {α : Type} : GoSlice α := ⟨[], 0⟩

/-- Append one element; when capacity is exhausted the runtime grows the
array (the growth amount is implementation-defined and unobservable, it
is modelled as doubling). -/
def goAppend {α : Type} (s : GoSlice α) (x : α) : GoSlice α :=
  match s.extraCap with
  | 0 => { data := s.data ++ [x], extraCap := s.data.length + 1 }
  | n + 1 => { data := s.data ++ [x], extraCap := n }

/-- The element-by-element append loop of the part_000 backup/restore. -/
def appendAll {α : Type} (s : GoSlice α) (xs : List α) : GoSlice α :=
  xs.foldl goAppend s

theorem goAppend_data {α : Type} (s : GoSlice α) (x : α) :
    (goAppend s x).data = s.data ++ [x] := by
  unfold goAppend; cases s.extraCap <;> rfl

theorem appendAll_data {α : Type} (s : GoSlice α) (xs : List α) :
    (appendAll s xs).data = s.data ++ xs := by
  induction xs generalizing s with
  | nil => simp [appendAll]
  | cons x xs ih =>
    simp only [appendAll, List.foldl_cons] at *
    rw [ih, goAppend_data, List.append_assoc]
    rfl

/-! ## The message and its header -/

/-- The fixed 24-byte header fields.  All fields are naturals; the Go
widths (uint8, uint16, uint32, uint64) are applied where the code
serializes or assigns them. -/
structure header where
  Magic : Nat
  Op : Nat
  KeyLen : Nat
  ExtraLen : Nat
  DataType : Nat
  ResvOrStatus : Nat
  BodyLen : Nat
  Opaque : Nat
  CAS : Nat
deriving DecidableEq

structure msg where
  header : header
  key : List Nat
  val : List Nat
  iextras : GoSlice ExtraIn
  oextras : GoSlice ExtraOut
deriving DecidableEq

def magicSend : Nat := 0x80

def magicRecv : Nat := 0x81

/-! ## sizeOfExtras and the extras serializer (send, lines 242-310 and 403-419)

The default branch of both Go type switches is a runtime panic; it is
modelled as the none case of an Option result, which every caller
propagates (a Go panic unwinds through all of them). -/

/-- Size in bytes of one request extra; none is the panic branch. -/
def extraInSize : ExtraIn → Option Nat
  | .u8 _ => some 1
  | .u16 _ => some 2
  | .u32 _ => some 4
  | .u64 _ => some 8
  | .unsupported => none

/-- sizeOfExtras accumulates widths in a uint8, so the running total
wraps modulo 256 exactly as the Go accumulator does. -/
def sizeOfExtras : List ExtraIn → Option Nat
  | [] => some 0
  | e :: es => do
    let w ← extraInSize e
    let rest ← sizeOfExtras es
    pure ((w + rest) % 256)

/-- The bytes the send loop writes for one extra (WriteByte for uint8,
big-endian PutUint for the wider types). -/
def extraInBytes : ExtraIn → List Nat
  | .u8 v => [v % 256]
  | .u16 v => be16 v
  | .u32 v => be32 v
  | .u64 v => be64 v
  | .unsupported => []

/-- The extras-segment bytes produced by the send loop; none when the
loop hits the panicking default branch. -/
def encodeExtras : List ExtraIn → Option (List Nat)
  | [] => some []
  | e :: es =>
    match e with
    | .unsupported => none
    | _ => (encodeExtras es).map (fun r => extraInBytes e ++ r)

/-- Total variant of the extras serializer, agreeing with encodeExtras
on every panic-free list. -/
def encodeExtrasL : List ExtraIn → List Nat
  | [] => []
  | e :: es => extraInBytes e ++ encodeExtrasL es

/-! ## The header codec (send lines 250-259, recv lines 323-332) -/

/-- The 24 header bytes written by send, in wire order; each field is
truncated to its Go width by the byte writes. -/
def headerBytes (h : header) : List Nat :=
  [h.Magic % 256, h.Op % 256] ++ be16 h.KeyLen ++ [h.ExtraLen % 256, h.DataType % 256] ++
    be16 h.ResvOrStatus ++ be32 h.BodyLen ++ be32 h.Opaque ++ be64 h.CAS

/-- The header parse in recv, reading from the front of the stream. -/
def parseHeader (b : List Nat) : header :=
  { Magic := b.getD 0 0
    Op := b.getD 1 0
    KeyLen := rd16 (b.drop 2)
    ExtraLen := b.getD 4 0
    DataType := b.getD 5 0
    ResvOrStatus := rd16 (b.drop 6)
    BodyLen := rd32 (b.drop 8)
    Opaque := rd32 (b.drop 12)
    CAS := rd64 (b.drop 16) }

/-- Each header field reduced to its Go machine width. -/
def normalizeHeader (h : header) : header :=
  { Magic := h.Magic % 2 ^ 8
    Op := h.Op % 2 ^ 8
    KeyLen := h.KeyLen % 2 ^ 16
    ExtraLen := h.ExtraLen % 2 ^ 8
    DataType := h.DataType % 2 ^ 8
    ResvOrStatus := h.ResvOrStatus % 2 ^ 16
    BodyLen := h.BodyLen % 2 ^ 32
    Opaque := h.Opaque % 2 ^ 32
    CAS := h.CAS % 2 ^ 64 }

theorem length_headerBytes (h : header) : (headerBytes h).length = 24 := by
  simp [headerBytes, be16, be32, be64]

/-! ## send (lines 242-310) -/

/-- Outcome of send: the updated message together with the advanced
opaque counter and the flushed frame bytes; err is the network-failure
return (reachable only through a failing transport, which the pure
byte-sink model never produces); panicked is the runtime panic of the
unknown-extra-type default branches. -/
inductive SendResult where
  | ok (m : msg) (opq : Nat) (frame : List Nat)
  | err (e : MCError)
  | panicked
deriving DecidableEq

/-- send: recompute the derived header fields (with the Go truncations),
serialize header, extras, key and value, and advance the uint32 opaque
counter. -/
def send (opq : Nat) (m : msg) : SendResult :=
  match sizeOfExtras m.iextras.data with
  | none => .panicked
  | some el =>
    let m1 : msg :=
      { m with
        header :=
          { m.header with
            Magic := magicSend
            ExtraLen := el
            KeyLen := m.key.length % 2 ^ 16
            BodyLen := (el + m.key.length % 2 ^ 16 + m.val.length % 2 ^ 32) % 2 ^ 32
            Opaque := opq } }
    match encodeExtras m1.iextras.data with
    | none => .panicked
    | some ex => .ok m1 ((opq + 1) % 2 ^ 32) (headerBytes m1.header ++ ex ++ m1.key ++ m1.val)

/-! ## recv (lines 314-400) -/

/-- Result of recv: the updated message, the (address, value) pairs
stored through the oextras destinations in order, the unread remainder
of the stream, and the returned error. -/
structure RecvOut where
  m : msg
  writes : List (Nat × Nat)
  rest : List Nat
  err : Option MCError
deriving DecidableEq

/-- The response-extras loop (lines 353-386): walk the destinations in
declared order, bounds-checking each read against the extras buffer;
the default branch returns the unknown-extra-type error. -/
def readExtras (extrasBuf : List Nat) : List ExtraOut → Nat → List (Nat × Nat) × Option MCError
  | [], _ => ([], none)
  | .p8 a :: es, offset =>
    if offset + 1 > extrasBuf.length then ([], some netErr)
    else
      let v := (extrasBuf.drop offset).getD 0 0
      let r := readExtras extrasBuf es (offset + 1)
      ((a, v) :: r.1, r.2)
  | .p16 a :: es, offset =>
    if offset + 2 > extrasBuf.length then ([], some netErr)
    else
      let v := rd16 (extrasBuf.drop offset)
      let r := readExtras extrasBuf es (offset + 2)
      ((a, v) :: r.1, r.2)
  | .p32 a :: es, offset =>
    if offset + 4 > extrasBuf.length then ([], some netErr)
    else
      let v := rd32 (extrasBuf.drop offset)
      let r := readExtras extrasBuf es (offset + 4)
      ((a, v) :: r.1, r.2)
  | .p64 a :: es, offset =>
    if offset + 8 > extrasBuf.length then ([], some netErr)
    else
      let v := rd64 (extrasBuf.drop offset)
      let r := readExtras extrasBuf es (offset + 8)
      ((a, v) :: r.1, r.2)
  | .unsupported :: _, _ => ([], some netErr)

/-- The key/value tail of recv (lines 389-399): bounds-check the key
length, split key and value, surface the status via newError. -/
def recvKeyVal (m1 : msg) (ws : List (Nat × Nat)) (buf rest : List Nat) : RecvOut :=
  if buf.length < m1.header.KeyLen then ⟨m1, ws, rest, some netErr⟩
  else
    ⟨{ m1 with key := buf.take m1.header.KeyLen, val := buf.drop m1.header.KeyLen }, ws, rest,
      newError m1.header.ResvOrStatus⟩

/-- The body phase of recv (lines 345-399), after the header is parsed
and exactly BodyLen bytes have been read. -/
def recvBody (m1 : msg) (body rest : List Nat) : RecvOut :=
  if m1.header.ResvOrStatus = 0 ∧ 0 < m1.header.ExtraLen then
    if body.length < m1.header.ExtraLen then ⟨m1, [], rest, some netErr⟩
    else
      match readExtras (body.take m1.header.ExtraLen) m1.oextras.data 0 with
      | (ws, some e) => ⟨m1, ws, rest, some e⟩
      | (ws, none) => recvKeyVal m1 ws (body.drop m1.header.ExtraLen) rest
  else recvKeyVal m1 [] body rest

/-- recv: read and parse the 24-byte header, read exactly BodyLen body
bytes (short reads are the wrapped unexpected-EOF network error), then
decode extras, key and value from the body. -/
def recv (stream : List Nat) (m0 : msg) : RecvOut :=
  if stream.length < 24 then ⟨m0, [], [], some netErr⟩
  else
    let hdr := parseHeader (stream.take 24)
    let m1 := { m0 with header := hdr }
    let afterHdr := stream.drop 24
    if afterHdr.length < hdr.BodyLen then ⟨m1, [], [], some netErr⟩
    else recvBody m1 (afterHdr.take hdr.BodyLen) (afterHdr.drop hdr.BodyLen)

/-! ## Connection state (resetConn lines 423-431, sendRecv lines 204-216)

The socket and buffered reader/writer are observable to the claims only
through whether a connection is established and how many times the
socket has been closed, so the state is a connected flag plus a close
counter.  The outcomes of the underlying send and recv I/O are passed
in explicitly: they are the one point where the byte-level model meets
the transport. -/

structure ConnState where
  connected : Bool
  closes : Nat
deriving DecidableEq

/-- resetConn: close and discard the socket, but only for a
StatusNetworkError and only when a connection exists. -/
def resetConn (st : ConnState) (e : MCError) : ConnState :=
  if e.Status = StatusNetworkError then
    if st.connected then { connected := false, closes := st.closes + 1 } else st
  else st

/-- sendRecv: on a send error reset and return it; otherwise on a recv
error reset and return it; otherwise succeed. -/
def sendRecvM (st : ConnState) (sendErr recvErr : Option MCError) :
    ConnState × Option MCError :=
  match sendErr with
  | some e => (resetConn st e, some e)
  | none =>
    match recvErr with
    | some e => (resetConn st e, some e)
    | none => (st, none)

/-! ## sendRecvStats (lines 219-239) -/

/-- The McStats result map, as an association list with map-assignment
update semantics. -/
abbrev McStats := List (List Nat × List Nat)

/-- stats[key] = val: replace the entry for an existing key, else add. -/
def statsInsert : McStats → List Nat → List Nat → McStats
  | [], k, v => [(k, v)]
  | (k0, v0) :: rest, k, v =>
    if k0 = k then (k, v) :: rest else (k0, v0) :: statsInsert rest k v

theorem recvKeyVal_rest (m1 : msg) (ws : List (Nat × Nat)) (buf rest : List Nat) :
    (recvKeyVal m1 ws buf rest).rest = rest := by
  unfold recvKeyVal; split <;> rfl

theorem recvBody_rest (m1 : msg) (body rest : List Nat) :
    (recvBody m1 body rest).rest = rest := by
  unfold recvBody
  split
  · split
    · rfl
    · split
      · rfl
      · exact recvKeyVal_rest ..
  · exact recvKeyVal_rest ..

theorem recvKeyVal_writes (m1 : msg) (ws : List (Nat × Nat)) (buf rest : List Nat) :
    (recvKeyVal m1 ws buf rest).writes = ws := by
  unfold recvKeyVal; split <;> rfl

theorem recv_rest_lt (stream : List Nat) (m : msg) (h : (recv stream m).err = none) :
    (recv stream m).rest.length < stream.length := by
  simp only [recv] at h ⊢
  by_cases h24 : stream.length < 24
  · rw [if_pos h24] at h; simp at h
  · rw [if_neg h24] at h ⊢
    by_cases hb : (stream.drop 24).length < (parseHeader (stream.take 24)).BodyLen
    · rw [if_pos hb] at h; simp at h
    · rw [if_neg hb] at h ⊢
      rw [recvBody_rest]
      simp only [List.length_drop]
      omega

/-- The recv-until-zero-key-length loop of sendRecvStats: accumulate
each key/value pair, reset the connection on any recv error, stop
cleanly on the first zero-key-length response. -/
def statsLoop (st : ConnState) (m : msg) (stream : List Nat) (acc : McStats) :
    ConnState × msg × McStats × Option MCError :=
  if h : ((recv stream m).err).isSome then
    (resetConn st ((recv stream m).err.get h), (recv stream m).m, acc, (recv stream m).err)
  else if (recv stream m).m.header.KeyLen = 0 then
    (st, (recv stream m).m, acc, none)
  else
    statsLoop st (recv stream m).m (recv stream m).rest
      (statsInsert acc (recv stream m).m.key (recv stream m).m.val)
termination_by stream.length
decreasing_by
  exact recv_rest_lt stream m (Option.not_isSome_iff_eq_none.mp h)

/-- Outcome of sendRecvStats; panicked propagates the unknown-extra-type
panic out of send. -/
inductive StatsResult where
  | ok (st : ConnState) (m : msg) (stats : McStats) (err : Option MCError)
  | panicked
deriving DecidableEq

/-- sendRecvStats: send the request (resetting the connection if send
fails), then collect statistics with the recv loop. -/
def sendRecvStats (st : ConnState) (opq : Nat) (m : msg) (stream : List Nat) : StatsResult :=
  match send opq m with
  | .panicked => .panicked
  | .err e => .ok (resetConn st e) m [] (some e)
  | .ok m1 _ _ =>
    let r := statsLoop st m1 stream []
    .ok r.1 r.2.1 r.2.2.1 r.2.2.2

/-! ## connect and auth (lines 122-201)

The dial outcome and the two authentication exchanges (authList and
authPlain, each a sendRecv whose connection-reset side effect is applied
exactly as sendRecv does) are passed in as parameters; the control flow
around them is the embedding of connect and auth. -/

/-- Does the second list start with the first. -/
def startsWith : List Nat → List Nat → Bool
  | [], _ => true
  | _ :: _, [] => false
  | a :: as, b :: bs => a == b && startsWith as bs

/-- Does the haystack contain the needle as a contiguous run. -/
def containsSeq (needle : List Nat) : List Nat → Bool
  | [] => needle.isEmpty
  | b :: bs => startsWith needle (b :: bs) || containsSeq needle bs

/-- strings.Contains(s, "PLAIN") on the mechanism list returned by the
auth-list exchange ("PLAIN" as its five ASCII bytes). -/
def containsPLAIN (s : List Nat) : Bool :=
  containsSeq [80, 76, 65, 73, 78] s

/-- auth: nothing to do without credentials; otherwise run authList
(a sendRecv: its error resets the connection as sendRecv does), and if
PLAIN is offered run authPlain (likewise), else the unknown-auth-types
error. -/
def authM (st : ConnState) (username password : List Nat)
    (alVal : List Nat) (alErr : Option MCError) (apErr : Option MCError) :
    ConnState × Option MCError :=
  if username.length = 0 ∧ password.length = 0 then (st, none)
  else
    match alErr with
    | some e => (resetConn st e, some e)
    | none =>
      if containsPLAIN alVal then
        match apErr with
        | some e => (resetConn st e, some e)
        | none => (st, none)
      else (st, some ⟨StatusAuthUnknown⟩)

/-- connect: dial (a failure returns before any connection exists), then
authenticate; an auth failure other than unknown-command closes the
socket (when still open) and returns the error, the unknown-command
outcome is treated as a server without auth support and is not fatal. -/
def connectM (dialErr : Option MCError) (username password : List Nat)
    (alVal : List Nat) (alErr : Option MCError) (apErr : Option MCError) :
    ConnState × Option MCError :=
  match dialErr with
  | some e => (⟨false, 0⟩, some e)
  | none =>
    let st : ConnState := ⟨true, 0⟩
    let r := authM st username password alVal alErr apErr
    match r.2 with
    | some e =>
      if e.Status ≠ StatusUnknownCommand then
        (if r.1.connected then ⟨false, r.1.closes + 1⟩ else r.1, some e)
      else (r.1, none)
    | none => (r.1, none)

/-! ## The tiered body-buffer pools (lines 19-51)

A buffer is its length and capacity plus an identity tag, so that reuse
of the same allocation is expressible.  The three sync.Pool values are
stacks; Get takes the most recent Put (or allocates the class size when
the pool is empty — the fresh counter supplies new identities), Put
stores the buffer re-sliced to its full capacity. -/

structure Buf where
  id : Nat
  len : Nat
  cap : Nat
deriving DecidableEq

structure Arena where
  small : List Buf
  medium : List Buf
  large : List Buf
  fresh : Nat
deriving DecidableEq

/-- getBodyBuffer: pick the tier by requested size and slice the pooled
(or newly made) buffer down to exactly that size; sizes above 64KB are
one-off allocations of exactly the requested size. -/
def getBodyBuffer (a : Arena) (size : Nat) : Buf × Arena :=
  if size ≤ 256 then
    match a.small with
    | b :: bs => ({ b with len := size }, { a with small := bs })
    | [] => (⟨a.fresh, size, 256⟩, { a with fresh := a.fresh + 1 })
  else if size ≤ 4096 then
    match a.medium with
    | b :: bs => ({ b with len := size }, { a with medium := bs })
    | [] => (⟨a.fresh, size, 4096⟩, { a with fresh := a.fresh + 1 })
  else if size ≤ 65536 then
    match a.large with
    | b :: bs => ({ b with len := size }, { a with large := bs })
    | [] => (⟨a.fresh, size, 65536⟩, { a with fresh := a.fresh + 1 })
  else (⟨a.fresh, size, size⟩, { a with fresh := a.fresh + 1 })

/-- putBodyBuffer: return the buffer, re-sliced to its capacity, to the
pool matching that capacity exactly; any other capacity is dropped. -/
def putBodyBuffer (a : Arena) (b : Buf) : Arena :=
  if b.cap = 256 then { a with small := { b with len := b.cap } :: a.small }
  else if b.cap = 4096 then { a with medium := { b with len := b.cap } :: a.medium }
  else if b.cap = 65536 then { a with large := { b with len := b.cap } :: a.large }
  else a

/-! ## backup and restore (server_conn.go lines 437-481, part_000 lines 401-447) -/

/-- backupMsg (optimized revision): copy key, value and the whole header
record, then copy both extras slices element-wise, reusing the backup
slot arrays when capacity allows. -/
def backupMsg (m b : msg) : msg :=
  { b with
    key := m.key
    val := m.val
    header := m.header
    iextras := copyInto b.iextras m.iextras.data
    oextras := copyInto b.oextras m.oextras.data }

/-- restoreMsg (optimized revision): the same copy in the opposite
direction. -/
def restoreMsg (m b : msg) : msg :=
  { m with
    key := b.key
    val := b.val
    header := b.header
    iextras := copyInto m.iextras b.iextras.data
    oextras := copyInto m.oextras b.oextras.data }

/-- backupMsg as in part_000: key and value, the nine header fields one
by one, then clear each extras slice to nil and rebuild it with append. -/
def backupMsgOrig (m b : msg) : msg :=
  { b with
    key := m.key
    val := m.val
    header :=
      { Magic := m.header.Magic
        Op := m.header.Op
        KeyLen := m.header.KeyLen
        ExtraLen := m.header.ExtraLen
        DataType := m.header.DataType
        ResvOrStatus := m.header.ResvOrStatus
        BodyLen := m.header.BodyLen
        Opaque := m.header.Opaque
        CAS := m.header.CAS }
    iextras := appendAll goNil m.iextras.data
    oextras := appendAll goNil m.oextras.data }

/-- restoreMsg as in part_000. -/
def restoreMsgOrig (m b : msg) : msg :=
  { m with
    key := b.key
    val := b.val
    header :=
      { Magic := b.header.Magic
        Op := b.header.Op
        KeyLen := b.header.KeyLen
        ExtraLen := b.header.ExtraLen
        DataType := b.header.DataType
        ResvOrStatus := b.header.ResvOrStatus
        BodyLen := b.header.BodyLen
        Opaque := b.header.Opaque
        CAS := b.header.CAS }
    iextras := appendAll goNil b.iextras.data
    oextras := appendAll goNil b.oextras.data }

/-! ## Codec lemmas -/

theorem parseHeader_headerBytes (h : header) (tail : List Nat) :
    parseHeader (headerBytes h ++ tail) = normalizeHeader h := by
  simp only [headerBytes, be16, be32, be64, List.cons_append, List.nil_append]
  simp only [parseHeader, normalizeHeader, rd16, rd32, rd64, List.getD, List.drop,
    header.mk.injEq]
  norm_num [List.get?]
  omega

/-- recv on a complete frame: parse the header and hand the body to
recvBody. -/
theorem recv_frame (h : header) (body tail : List Nat) (m : msg)
    (hb : body.length = (normalizeHeader h).BodyLen) :
    recv (headerBytes h ++ (body ++ tail)) m =
      recvBody { m with header := normalizeHeader h } body tail := by
  have h24 : (headerBytes h).length = 24 := length_headerBytes h
  have htake : (headerBytes h ++ (body ++ tail)).take 24 = headerBytes h := List.take_left' h24
  have hdrop : (headerBytes h ++ (body ++ tail)).drop 24 = body ++ tail := List.drop_left' h24
  have hparse : parseHeader ((headerBytes h ++ (body ++ tail)).take 24) = normalizeHeader h := by
    rw [htake, ← List.append_nil (headerBytes h), parseHeader_headerBytes]
  simp only [recv, hparse, hdrop]
  rw [if_neg (by simp [List.length_append, h24]), if_neg (by simp [hb]),
    List.take_left' hb, List.drop_left' hb]

theorem length_extraInBytes (e : ExtraIn) : (extraInBytes e).length = widthIn e := by
  cases e <;> rfl

theorem length_encodeExtrasL (l : List ExtraIn) :
    (encodeExtrasL l).length = extrasWidthIn l := by
  induction l with
  | nil => rfl
  | cons e es ih => simp [encodeExtrasL, extrasWidthIn, length_extraInBytes, ih]

theorem sizeOfExtras_eq_of_supported (l : List ExtraIn) (h : l.all supportedIn = true) :
    sizeOfExtras l = some (extrasWidthIn l % 256) := by
  induction l with
  | nil => rfl
  | cons e es ih =>
    rw [List.all_cons, Bool.and_eq_true] at h
    rw [sizeOfExtras, ih h.2]
    have h1 := h.1
    cases e <;> simp_all [supportedIn, extraInSize, extrasWidthIn, widthIn]

theorem encodeExtras_eq_of_supported (l : List ExtraIn) (h : l.all supportedIn = true) :
    encodeExtras l = some (encodeExtrasL l) := by
  induction l with
  | nil => rfl
  | cons e es ih =>
    rw [List.all_cons, Bool.and_eq_true] at h
    have h1 := h.1
    cases e <;> simp_all [supportedIn, encodeExtras, encodeExtrasL, ih h.2]

theorem sizeOfExtras_eq_none (l : List ExtraIn) (h : ExtraIn.unsupported ∈ l) :
    sizeOfExtras l = none := by
  induction l with
  | nil => cases h
  | cons e es ih =>
    rw [sizeOfExtras]
    rcases List.mem_cons.mp h with h1 | h1
    · rw [← h1]; rfl
    · cases hes : sizeOfExtras es with
      | none => cases e <;> simp [extraInSize, hes]
      | some n => rw [ih h1] at hes; cases hes

/-- If every supported extra has positive width, a zero total width
forces the empty list. -/
theorem extrasWidthIn_eq_zero (l : List ExtraIn) (h : l.all supportedIn = true)
    (hz : extrasWidthIn l = 0) : l = [] := by
  cases l with
  | nil => rfl
  | cons e es =>
    rw [List.all_cons, Bool.and_eq_true] at h
    have h1 := h.1
    exfalso
    cases e <;> simp_all [supportedIn, extrasWidthIn, widthIn]

/-- A destination is one of the four supported pointer widths. -/
def supportedOut : ExtraOut → Bool
  | .unsupported => false
  | _ => true

/-- Exact total byte width required by a list of destinations. -/
def extrasWidthOut : List ExtraOut → Nat
  | [] => 0
  | e :: es => widthOut e + extrasWidthOut es

/-- The response-extras loop on a buffer that is exactly the encoding of
same-width request extras fills each destination, in order, with the
corresponding request value. -/
theorem readExtras_encode (ins : List ExtraIn) (outs : List ExtraOut) (pre : List Nat)
    (hwf : ins.all extraInWF = true) (hw : sameWidths ins outs = true) :
    readExtras (pre ++ encodeExtrasL ins) outs pre.length =
      ((outs.map addrOf).zip (ins.map extraInVal), none) := by
  induction ins generalizing outs pre with
  | nil =>
    cases outs with
    | nil => simp [readExtras, encodeExtrasL]
    | cons o os => simp [sameWidths] at hw
  | cons e es ih =>
    cases outs with
    | nil => simp [sameWidths] at hw
    | cons o os =>
      rw [sameWidths, Bool.and_eq_true] at hw
      rw [List.all_cons, Bool.and_eq_true] at hwf
      have hlen : (encodeExtrasL es).length = extrasWidthIn es := length_encodeExtrasL es
      cases e <;> cases o
      case u8.p8 v a =>
        have hv : v < 256 := by have h0 := hwf.1; simp [extraInWF] at h0; omega
        simp only [encodeExtrasL, extraInBytes, readExtras]
        rw [if_neg (by simp), ← List.append_assoc]
        have hpre : (pre ++ [v % 256]).length = pre.length + 1 := by simp
        rw [← hpre, ih os (pre ++ [v % 256]) hwf.2 hw.2]
        have : ((pre ++ [v % 256]) ++ encodeExtrasL es).drop pre.length =
            [v % 256] ++ encodeExtrasL es := by
          rw [List.append_assoc, List.drop_left]
        rw [List.append_assoc] at this
        simp [this, addrOf, extraInVal, Nat.mod_eq_of_lt hv]
      case u16.p16 v a =>
        have hv : v < 65536 := by have h0 := hwf.1; simp [extraInWF] at h0; omega
        simp only [encodeExtrasL, extraInBytes, readExtras]
        rw [if_neg (by simp [be16]), ← List.append_assoc]
        have hpre : (pre ++ be16 v).length = pre.length + 2 := by simp [be16]
        rw [← hpre, ih os (pre ++ be16 v) hwf.2 hw.2]
        have hdrop : (pre ++ (be16 v ++ encodeExtrasL es)).drop pre.length =
            be16 v ++ encodeExtrasL es := by
          rw [← List.append_assoc, List.append_assoc, List.drop_left]
        rw [← List.append_assoc] at hdrop
        simp [hdrop, rd16_be16_append, addrOf, extraInVal, Nat.mod_eq_of_lt hv]
      case u32.p32 v a =>
        have hv : v < 4294967296 := by have h0 := hwf.1; simp [extraInWF] at h0; omega
        simp only [encodeExtrasL, extraInBytes, readExtras]
        rw [if_neg (by simp [be32]), ← List.append_assoc]
        have hpre : (pre ++ be32 v).length = pre.length + 4 := by simp [be32]
        rw [← hpre, ih os (pre ++ be32 v) hwf.2 hw.2]
        have hdrop : (pre ++ (be32 v ++ encodeExtrasL es)).drop pre.length =
            be32 v ++ encodeExtrasL es := by
          rw [← List.append_assoc, List.append_assoc, List.drop_left]
        rw [← List.append_assoc] at hdrop
        simp [hdrop, rd32_be32_append, addrOf, extraInVal, Nat.mod_eq_of_lt hv]
      case u64.p64 v a =>
        have hv : v < 18446744073709551616 := by
          have h0 := hwf.1; simp [extraInWF] at h0; omega
        simp only [encodeExtrasL, extraInBytes, readExtras]
        rw [if_neg (by simp [be64]), ← List.append_assoc]
        have hpre : (pre ++ be64 v).length = pre.length + 8 := by simp [be64]
        rw [← hpre, ih os (pre ++ be64 v) hwf.2 hw.2]
        have hdrop : (pre ++ (be64 v ++ encodeExtrasL es)).drop pre.length =
            be64 v ++ encodeExtrasL es := by
          rw [← List.append_assoc, List.append_assoc, List.drop_left]
        rw [← List.append_assoc] at hdrop
        simp [hdrop, rd64_be64_append, addrOf, extraInVal, Nat.mod_eq_of_lt hv]
      all_goals simp_all [sameWidth]

/-- The response-extras loop errors (with the wrapped network status)
whenever the buffer holds fewer bytes than the supported destinations
jointly require. -/
theorem readExtras_short (outs : List ExtraOut) (buf : List Nat) (offset : Nat)
    (hsup : outs.all supportedOut = true)
    (hlt : buf.length < offset + extrasWidthOut outs) (hoff : offset ≤ buf.length) :
    (readExtras buf outs offset).2 = some netErr := by
  induction outs generalizing offset with
  | nil =>
    exfalso
    simp [extrasWidthOut] at hlt
    omega
  | cons o os ih =>
    rw [List.all_cons, Bool.and_eq_true] at hsup
    have h1 := hsup.1
    rw [extrasWidthOut] at hlt
    cases o
    case p8 a =>
      simp only [widthOut] at hlt
      rw [readExtras]
      split
      · rfl
      · next hc =>
        have := ih (offset + 1) hsup.2 (by omega) (by omega)
        simpa using this
    case p16 a =>
      simp only [widthOut] at hlt
      rw [readExtras]
      split
      · rfl
      · next hc =>
        have := ih (offset + 2) hsup.2 (by omega) (by omega)
        simpa using this
    case p32 a =>
      simp only [widthOut] at hlt
      rw [readExtras]
      split
      · rfl
      · next hc =>
        have := ih (offset + 4) hsup.2 (by omega) (by omega)
        simpa using this
    case p64 a =>
      simp only [widthOut] at hlt
      rw [readExtras]
      split
      · rfl
      · next hc =>
        have := ih (offset + 8) hsup.2 (by omega) (by omega)
        simpa using this
    all_goals simp_all [supportedOut]

/-! ## The shape of a successful send -/

/-- The header send installs into the message: magic forced to the
request magic, lengths recomputed with the Go truncations, opaque taken
from the connection counter. -/
def sentHeader (opq : Nat) (m : msg) : header :=
  { m.header with
    Magic := magicSend
    ExtraLen := extrasWidthIn m.iextras.data % 256
    KeyLen := m.key.length % 2 ^ 16
    BodyLen := (extrasWidthIn m.iextras.data % 256 + m.key.length % 2 ^ 16 +
      m.val.length % 2 ^ 32) % 2 ^ 32
    Opaque := opq }

/-- The message after a successful send. -/
def sentMsg (opq : Nat) (m : msg) : msg :=
  { m with header := sentHeader opq m }

/-- The frame a successful send flushes: header, extras segment, key,
value. -/
def sentFrame (opq : Nat) (m : msg) : List Nat :=
  headerBytes (sentHeader opq m) ++ encodeExtrasL m.iextras.data ++ m.key ++ m.val

theorem send_eq_of_supported (opq : Nat) (m : msg)
    (h : m.iextras.data.all supportedIn = true) :
    send opq m = .ok (sentMsg opq m) ((opq + 1) % 2 ^ 32) (sentFrame opq m) := by
  rw [send, sizeOfExtras_eq_of_supported _ h]
  have he : encodeExtras m.iextras.data = some (encodeExtrasL m.iextras.data) :=
    encodeExtras_eq_of_supported _ h
  simp only [he]
  rfl

theorem send_panicked_of_unsupported (opq : Nat) (m : msg)
    (h : ExtraIn.unsupported ∈ m.iextras.data) :
    send opq m = .panicked := by
  rw [send, sizeOfExtras_eq_none _ h]

theorem supported_of_wf (l : List ExtraIn) (h : l.all extraInWF = true) :
    l.all supportedIn = true := by
  induction l with
  | nil => rfl
  | cons e es ih =>
    rw [List.all_cons, Bool.and_eq_true] at *
    exact ⟨by cases e <;> simp_all [extraInWF, supportedIn], ih h.2⟩

theorem sameWidths_nil (outs : List ExtraOut) (h : sameWidths [] outs = true) :
    outs = [] := by
  cases outs with
  | nil => rfl
  | cons o os => simp [sameWidths] at h

/-- recvKeyVal on a buffer that is exactly key followed by value. -/
theorem recvKeyVal_exact (m1 : msg) (ws : List (Nat × Nat)) (k v rest : List Nat)
    (hk : m1.header.KeyLen = k.length) :
    recvKeyVal m1 ws (k ++ v) rest =
      ⟨{ m1 with key := k, val := v }, ws, rest, newError m1.header.ResvOrStatus⟩ := by
  unfold recvKeyVal
  rw [if_neg (by simp [hk]), hk, List.take_left, List.drop_left]

/-- recvBody on a body that is exactly the encoding of same-width
request extras followed by key and value. -/
theorem recvBody_encoded (m1 : msg) (ins : List ExtraIn) (k v rest : List Nat)
    (hwf : ins.all extraInWF = true) (hw : sameWidths ins m1.oextras.data = true)
    (hst : m1.header.ResvOrStatus = 0)
    (hel : m1.header.ExtraLen = extrasWidthIn ins)
    (hkl : m1.header.KeyLen = k.length) :
    recvBody m1 (encodeExtrasL ins ++ (k ++ v)) rest =
      ⟨{ m1 with key := k, val := v },
        (m1.oextras.data.map addrOf).zip (ins.map extraInVal), rest, none⟩ := by
  have hsup := supported_of_wf _ hwf
  have hre := readExtras_encode ins m1.oextras.data [] hwf hw
  simp only [List.nil_append, List.length_nil] at hre
  by_cases hz : extrasWidthIn ins = 0
  · have hins : ins = [] := extrasWidthIn_eq_zero ins hsup hz
    have houts : m1.oextras.data = [] := sameWidths_nil _ (hins ▸ hw)
    rw [recvBody, if_neg (by rw [hel, hz]; simp)]
    rw [hins]
    simp only [encodeExtrasL, List.nil_append]
    rw [recvKeyVal_exact m1 [] k v rest hkl, hst]
    simp [newError, StatusOK, houts]
  · rw [recvBody, if_pos ⟨hst, by omega⟩]
    rw [if_neg (by simp [hel, length_encodeExtrasL]
                 )]
    have htk : (encodeExtrasL ins ++ (k ++ v)).take m1.header.ExtraLen = encodeExtrasL ins := by
      rw [hel]
      exact List.take_left' (length_encodeExtrasL ins)
    have hdr : (encodeExtrasL ins ++ (k ++ v)).drop m1.header.ExtraLen = k ++ v := by
      rw [hel]
      exact List.drop_left' (length_encodeExtrasL ins)
    rw [htk, hdr, hre]
    dsimp only
    rw [recvKeyVal_exact m1 _ k v rest hkl, hst]
    simp [newError, StatusOK]

/-! ## Claim C1: encode/decode round trip -/

/-- C1 (amended): for a message with key at most 250 bytes, value at
most 1MB, well-formed 8/16/32/64-bit extras whose total width is at
most 255 bytes, matching-width destinations, and a zero status field,
feeding the frame written by send back to recv reproduces the key and
the value in the message and stores every extras value, bit for bit, to
its destination in declared order. -/
theorem C1_roundtrip (opq : Nat) (m : msg)
    (hk : m.key.length ≤ 250) (hv : m.val.length ≤ 2 ^ 20)
    (hwf : m.iextras.data.all extraInWF = true)
    (hw : sameWidths m.iextras.data m.oextras.data = true)
    (hsum : extrasWidthIn m.iextras.data ≤ 255)
    (hst : m.header.ResvOrStatus = 0) :
    send opq m = .ok (sentMsg opq m) ((opq + 1) % 2 ^ 32) (sentFrame opq m) ∧
    (recv (sentFrame opq m) (sentMsg opq m)).m.key = m.key ∧
    (recv (sentFrame opq m) (sentMsg opq m)).m.val = m.val ∧
    (recv (sentFrame opq m) (sentMsg opq m)).writes =
      (m.oextras.data.map addrOf).zip (m.iextras.data.map extraInVal) ∧
    (recv (sentFrame opq m) (sentMsg opq m)).err = none := by
  have hsup := supported_of_wf _ hwf
  have hframe : sentFrame opq m =
      headerBytes (sentHeader opq m) ++
        ((encodeExtrasL m.iextras.data ++ (m.key ++ m.val)) ++ []) := by
    simp [sentFrame]
  have hbodylen : (encodeExtrasL m.iextras.data ++ (m.key ++ m.val)).length =
      (normalizeHeader (sentHeader opq m)).BodyLen := by
    simp [normalizeHeader, sentHeader, length_encodeExtrasL]
    omega
  have h1 : recv (sentFrame opq m) (sentMsg opq m) =
      recvBody { sentMsg opq m with header := normalizeHeader (sentHeader opq m) }
        (encodeExtrasL m.iextras.data ++ (m.key ++ m.val)) [] := by
    rw [hframe, recv_frame _ _ _ _ hbodylen]
  have h2 := recvBody_encoded
    { sentMsg opq m with header := normalizeHeader (sentHeader opq m) }
    m.iextras.data m.key m.val [] hwf
    (by simpa [sentMsg] using hw)
    (by simp [normalizeHeader, sentHeader, hst])
    (by simp [normalizeHeader, sentHeader]; omega)
    (by simp [normalizeHeader, sentHeader]; omega)
  have hox : ({ sentMsg opq m with
      header := normalizeHeader (sentHeader opq m) } : msg).oextras.data = m.oextras.data := by
    simp [sentMsg]
  rw [hox] at h2
  refine ⟨send_eq_of_supported opq m hsup, ?_, ?_, ?_, ?_⟩ <;> rw [h1, h2]

/-- A message meeting every hypothesis of the round-trip claim except
that its status word is nonzero: recv then skips the extras segment,
so the first body byte it takes for the key is the extras byte. -/
def cexMsg1 : msg :=
  { header := ⟨0, 0, 0, 0, 0, 1, 0, 0, 0⟩
    key := [1]
    val := [2]
    iextras := ⟨[.u8 171], 0⟩
    oextras := ⟨[.p8 7], 0⟩ }

/-- The key recovered by feeding the frame written by send back to
recv, as the round-trip claim exercises it. -/
def roundTripKey (opq : Nat) (m : msg) : Option (List Nat) :=
  match send opq m with
  | .ok m1 _ frame => some (recv frame m1).m.key
  | _ => none

/-- C1 counterexample: a message with a 1-byte key, a 1-byte value and
one 8-bit extra (within every bound the claim states) whose status word
is 1 does not get its key back from decode(encode(msg)). -/
theorem C1_counterexample : roundTripKey 0 cexMsg1 ≠ some cexMsg1.key := by decide

def wMsg1 : msg :=
  { header := ⟨0, 1, 0, 0, 0, 0, 0, 0, 0⟩
    key := [102, 111, 111]
    val := [98, 97, 114]
    iextras := ⟨[.u32 3735928559, .u32 3600], 0⟩
    oextras := ⟨[.p32 11, .p32 12], 0⟩ }

theorem C1_roundtrip_witness :
    (recv (sentFrame 0 wMsg1) (sentMsg 0 wMsg1)).m.key = wMsg1.key ∧
    (recv (sentFrame 0 wMsg1) (sentMsg 0 wMsg1)).m.val = wMsg1.val ∧
    (recv (sentFrame 0 wMsg1) (sentMsg 0 wMsg1)).writes =
      (wMsg1.oextras.data.map addrOf).zip (wMsg1.iextras.data.map extraInVal) :=
  have h := C1_roundtrip 0 wMsg1 (by decide) (by decide) (by decide) (by decide)
    (by decide) (by decide)
  ⟨h.2.1, h.2.2.1, h.2.2.2.1⟩

/-! ## Claim C2: unsupported extras type in send -/

def cexMsg2 : msg :=
  { header := ⟨0, 0, 0, 0, 0, 0, 0, 0, 0⟩
    key := []
    val := []
    iextras := ⟨[.unsupported], 0⟩
    oextras := ⟨[], 0⟩ }

/-- C2 counterexample: on a message holding an extras element of an
unsupported type, send ends in the runtime panic of the type-switch
default branch and does not return any error value to the caller. -/
theorem C2_counterexample :
    send 0 cexMsg2 = SendResult.panicked ∧
    ∀ e : MCError, send 0 cexMsg2 ≠ SendResult.err e := by
  refine ⟨by decide, ?_⟩
  intro e h
  have hp : send 0 cexMsg2 = SendResult.panicked := by decide
  rw [hp] at h
  exact SendResult.noConfusion h

/-- C2 (amended): for every message containing an extras element whose
type is not one of the four supported unsigned widths, send panics (the
unknown-extra-type runtime panic) instead of returning an error. -/
theorem C2_panic (opq : Nat) (m : msg) (h : ExtraIn.unsupported ∈ m.iextras.data) :
    send opq m = SendResult.panicked :=
  send_panicked_of_unsupported opq m h

theorem C2_panic_witness :
    ExtraIn.unsupported ∈ cexMsg2.iextras.data ∧ send 0 cexMsg2 = SendResult.panicked :=
  ⟨by decide, C2_panic 0 cexMsg2 (by decide)⟩

/-! ## Claim C3: the body-length invariant after send -/

/-- The BodyLen header field send installs, when send succeeds. -/
def sentBodyLen (opq : Nat) (m : msg) : Option Nat :=
  match send opq m with
  | .ok m1 _ _ => some m1.header.BodyLen
  | _ => none

def cexMsg3 : msg :=
  { header := ⟨0, 0, 0, 0, 0, 0, 0, 0, 0⟩
    key := []
    val := []
    iextras := ⟨List.replicate 32 (.u64 0), 0⟩
    oextras := ⟨[], 0⟩ }

set_option maxRecDepth 8192 in
/-- C3 counterexample: thirty-two 64-bit extras occupy 256 actual bytes
in the extras segment, but the uint8 extras-length accumulator wraps to
0, so the header send writes records BodyLen 0 while the actual byte
lengths sum to 256. -/
theorem C3_counterexample :
    sentBodyLen 0 cexMsg3 = some 0 ∧
    (encodeExtrasL cexMsg3.iextras.data).length + cexMsg3.key.length +
      cexMsg3.val.length = 256 := by
  constructor
  · decide
  · decide

/-- C3 (amended): whenever the extras are supported types totalling at
most 255 bytes, the key is shorter than 64KB and the three actual byte
lengths sum below 4GB, the BodyLen send writes equals the actual byte
length of the extras segment plus the key length plus the value
length. -/
theorem C3_bodyLen (opq : Nat) (m : msg)
    (hsup : m.iextras.data.all supportedIn = true)
    (hsum : extrasWidthIn m.iextras.data ≤ 255)
    (hkey : m.key.length < 2 ^ 16)
    (htot : extrasWidthIn m.iextras.data + m.key.length + m.val.length < 2 ^ 32) :
    send opq m = .ok (sentMsg opq m) ((opq + 1) % 2 ^ 32) (sentFrame opq m) ∧
    (sentMsg opq m).header.BodyLen =
      (encodeExtrasL m.iextras.data).length + m.key.length + m.val.length := by
  refine ⟨send_eq_of_supported opq m hsup, ?_⟩
  simp [sentMsg, sentHeader, length_encodeExtrasL]
  omega

def wMsg3 : msg :=
  { header := ⟨0, 2, 0, 0, 0, 0, 0, 0, 0⟩
    key := [107]
    val := [1, 2, 3, 4]
    iextras := ⟨[.u32 7, .u32 9], 0⟩
    oextras := ⟨[], 0⟩ }

theorem C3_bodyLen_witness :
    (sentMsg 0 wMsg3).header.BodyLen =
      (encodeExtrasL wMsg3.iextras.data).length + wMsg3.key.length + wMsg3.val.length :=
  (C3_bodyLen 0 wMsg3 (by decide) (by decide) (by decide) (by decide)).2

/-! ## Claim C4: sendRecv teardown discipline -/

/-- C4: on a connected connection, a network-class error from send or
from recv tears the connection down exactly once (one socket close,
state disconnected) and that single error is returned; a cleanly
decoded non-zero server status from recv is returned as is, with no
teardown, leaving the connection connected. -/
theorem C4_sendRecv_teardown (st : ConnState) (e : MCError) (r : Option MCError) (s : Nat)
    (hc : st.connected = true) :
    (e.Status = StatusNetworkError →
      sendRecvM st (some e) r = (⟨false, st.closes + 1⟩, some e) ∧
      sendRecvM st none (some e) = (⟨false, st.closes + 1⟩, some e)) ∧
    (s ≠ StatusOK → s ≠ StatusNetworkError →
      sendRecvM st none (newError s) = (st, some ⟨s⟩)) := by
  constructor
  · intro he
    constructor <;> simp [sendRecvM, resetConn, he, hc]
  · intro h0 hn
    have h0n : ¬ s = 0 := by simpa [StatusOK] using h0
    simp [sendRecvM, newError, StatusOK, h0n, resetConn, hn]

theorem C4_sendRecv_teardown_witness :
    sendRecvM ⟨true, 0⟩ none (some ⟨StatusNetworkError⟩) =
      (⟨false, 1⟩, some ⟨StatusNetworkError⟩) ∧
    sendRecvM ⟨true, 0⟩ none (newError StatusNotFound) = (⟨true, 0⟩, some ⟨StatusNotFound⟩) :=
  have h := C4_sendRecv_teardown ⟨true, 0⟩ ⟨StatusNetworkError⟩ (some ⟨StatusNetworkError⟩)
    StatusNotFound rfl
  ⟨(h.1 rfl).2, h.2 (by decide) (by decide)⟩

/-! ## Claim C5: snapshot and restore -/

/-- C5: after backup takes a snapshot into the backup slot and the
message is then arbitrarily mutated (any replacement message stands for
the mutation), restore brings the header, the key, the value, the
extras values and the extras-destination descriptors back to their
contents at the moment of the snapshot. -/
theorem C5_backup_restore (m b mm : msg) :
    (restoreMsg mm (backupMsg m b)).header = m.header ∧
    (restoreMsg mm (backupMsg m b)).key = m.key ∧
    (restoreMsg mm (backupMsg m b)).val = m.val ∧
    (restoreMsg mm (backupMsg m b)).iextras.data = m.iextras.data ∧
    (restoreMsg mm (backupMsg m b)).oextras.data = m.oextras.data := by
  refine ⟨rfl, rfl, rfl, ?_, ?_⟩ <;> simp [restoreMsg, backupMsg, copyInto_data]

/-! ## Claim C6: connect and the authentication outcomes -/

/-- The states reachable from a fresh connection through the auth
exchanges: untouched, or closed once by a network reset. -/
theorem authM_state (username password alVal : List Nat) (alErr apErr : Option MCError) :
    (authM ⟨true, 0⟩ username password alVal alErr apErr).1 = ⟨true, 0⟩ ∨
    (authM ⟨true, 0⟩ username password alVal alErr apErr).1 = ⟨false, 1⟩ := by
  by_cases h : username.length = 0 ∧ password.length = 0
  · simp [authM, h]
  · cases alErr with
    | some e =>
      simp only [authM, if_neg h, resetConn]
      split <;> simp
    | none =>
      by_cases hp : containsPLAIN alVal
      · cases apErr with
        | some e =>
          simp only [authM, if_neg h, hp, if_true, resetConn]
          split <;> simp
        | none =>
          have h2 : ¬(username = [] ∧ password = []) := by simpa using h
          simp [authM, h2, hp]
      · have h2 : ¬(username = [] ∧ password = []) := by simpa using h
        simp [authM, h2, hp]

/-- C6: with credentials configured, an authentication failure carrying
the unknown-command status leaves connect successful with the
connection established; an authentication failure with any other status
(including the unknown-mechanism-list error) leaves the socket closed
exactly once, the state disconnected, and that error returned. -/
theorem C6_connect_auth (username password alVal : List Nat)
    (alErr apErr : Option MCError) (e : MCError)
    (hcreds : ¬(username.length = 0 ∧ password.length = 0)) :
    (alErr = some e → e.Status = StatusUnknownCommand →
      connectM none username password alVal alErr apErr = (⟨true, 0⟩, none)) ∧
    (alErr = none → containsPLAIN alVal = true → apErr = some e →
      e.Status = StatusUnknownCommand →
      connectM none username password alVal alErr apErr = (⟨true, 0⟩, none)) ∧
    (∀ st1 : ConnState,
      authM ⟨true, 0⟩ username password alVal alErr apErr = (st1, some e) →
      e.Status ≠ StatusUnknownCommand →
      connectM none username password alVal alErr apErr = (⟨false, 1⟩, some e)) := by
  have hcreds2 : ¬(username = [] ∧ password = []) := by simpa using hcreds
  refine ⟨?_, ?_, ?_⟩
  · intro hal he
    subst hal
    have hns : ¬ e.Status = StatusNetworkError := by
      rw [he]; decide
    simp [connectM, authM, hcreds2, resetConn, hns, he, StatusUnknownCommand,
      StatusNetworkError]
  · intro hal hp hap he
    subst hal
    subst hap
    have hns : ¬ e.Status = StatusNetworkError := by
      rw [he]; decide
    simp [connectM, authM, hcreds2, hp, resetConn, hns, he, StatusUnknownCommand,
      StatusNetworkError]
  · intro st1 hauth hne
    have hst := authM_state username password alVal alErr apErr
    rw [hauth] at hst
    simp only [connectM, hauth]
    rw [if_pos hne]
    rcases hst with hst | hst <;> (simp at hst; subst hst; simp)

theorem C6_connect_auth_witness :
    connectM none [117] [112] [] (some ⟨StatusUnknownCommand⟩) none = (⟨true, 0⟩, none) ∧
    connectM none [117] [112] [] (some ⟨StatusAuthUnknown⟩) none =
      (⟨false, 1⟩, some ⟨StatusAuthUnknown⟩) :=
  have h1 := C6_connect_auth [117] [112] [] (some ⟨StatusUnknownCommand⟩) none
    ⟨StatusUnknownCommand⟩ (by decide)
  have h2 := C6_connect_auth [117] [112] [] (some ⟨StatusAuthUnknown⟩) none
    ⟨StatusAuthUnknown⟩ (by decide)
  ⟨h1.1 rfl rfl, h2.2.2 ⟨true, 0⟩ (by decide) (by decide)⟩

/-! ## Claim C9: the tiered body-buffer arena -/

/-- C9: acquire returns a buffer of exactly the requested length, so a
release-and-reacquire never yields a buffer smaller than the request;
a released buffer of capacity exactly 256, 4096 or 65536 goes to the
head of the matching pool and the next fitting acquire returns that
same buffer; a request above 65536 is a fresh one-off allocation and a
release of a buffer above 65536 is a no-op. -/
theorem C9_arena (a : Arena) (s : Nat) (b : Buf) :
    ((getBodyBuffer a s).1.len = s) ∧
    (¬ (getBodyBuffer (putBodyBuffer (getBodyBuffer a s).2 (getBodyBuffer a s).1) s).1.len < s) ∧
    (b.cap = 256 →
      (putBodyBuffer a b).small = { b with len := 256 } :: a.small ∧
      (s ≤ 256 → (getBodyBuffer (putBodyBuffer a b) s).1.id = b.id)) ∧
    (b.cap = 4096 →
      (putBodyBuffer a b).medium = { b with len := 4096 } :: a.medium ∧
      (256 < s → s ≤ 4096 → (getBodyBuffer (putBodyBuffer a b) s).1.id = b.id)) ∧
    (b.cap = 65536 →
      (putBodyBuffer a b).large = { b with len := 65536 } :: a.large ∧
      (4096 < s → s ≤ 65536 → (getBodyBuffer (putBodyBuffer a b) s).1.id = b.id)) ∧
    (65536 < s →
      (getBodyBuffer a s).1 = ⟨a.fresh, s, s⟩ ∧
      (getBodyBuffer a s).2 = { a with fresh := a.fresh + 1 }) ∧
    (65536 < b.cap → putBodyBuffer a b = a) := by
  have hlen : ∀ (a2 : Arena) (s2 : Nat), (getBodyBuffer a2 s2).1.len = s2 := by
    intro a2 s2
    unfold getBodyBuffer
    split
    · split <;> rfl
    · split
      · split <;> rfl
      · split
        · split <;> rfl
        · rfl
  refine ⟨hlen a s, by rw [hlen]; omega, ?_, ?_, ?_, ?_, ?_⟩
  · intro hcap
    have hput : (putBodyBuffer a b).small = { b with len := 256 } :: a.small ∧
        (putBodyBuffer a b).medium = a.medium ∧ (putBodyBuffer a b).large = a.large := by
      rw [putBodyBuffer, if_pos hcap, hcap]
      exact ⟨rfl, rfl, rfl⟩
    refine ⟨hput.1, ?_⟩
    intro hs
    rw [getBodyBuffer, if_pos hs, hput.1]
  · intro hcap
    have hput : (putBodyBuffer a b).medium = { b with len := 4096 } :: a.medium ∧
        (putBodyBuffer a b).small = a.small ∧ (putBodyBuffer a b).large = a.large := by
      rw [putBodyBuffer, if_neg (by omega), if_pos hcap, hcap]
      exact ⟨rfl, rfl, rfl⟩
    refine ⟨hput.1, ?_⟩
    intro hs1 hs2
    rw [getBodyBuffer, if_neg (by omega), if_pos hs2, hput.1]
  · intro hcap
    have hput : (putBodyBuffer a b).large = { b with len := 65536 } :: a.large ∧
        (putBodyBuffer a b).small = a.small ∧ (putBodyBuffer a b).medium = a.medium := by
      rw [putBodyBuffer, if_neg (by omega), if_neg (by omega), if_pos hcap, hcap]
      exact ⟨rfl, rfl, rfl⟩
    refine ⟨hput.1, ?_⟩
    intro hs1 hs2
    rw [getBodyBuffer, if_neg (by omega), if_neg (by omega), if_pos hs2, hput.1]
  · intro hs
    rw [getBodyBuffer, if_neg (by omega), if_neg (by omega), if_neg (by omega)]
    exact ⟨rfl, rfl⟩
  · intro hcap
    rw [putBodyBuffer, if_neg (by omega), if_neg (by omega), if_neg (by omega)]

theorem C9_arena_witness :
    (getBodyBuffer ⟨[], [], [], 0⟩ 100).1.len = 100 ∧
    (putBodyBuffer ⟨[], [], [], 5⟩ ⟨3, 100, 256⟩).small = [⟨3, 256, 256⟩] ∧
    (getBodyBuffer (putBodyBuffer ⟨[], [], [], 5⟩ ⟨3, 100, 256⟩) 7).1.id = 3 ∧
    (getBodyBuffer ⟨[], [], [], 5⟩ 70000).1 = ⟨5, 70000, 70000⟩ ∧
    putBodyBuffer ⟨[], [], [], 5⟩ ⟨4, 70000, 70000⟩ = ⟨[], [], [], 5⟩ :=
  have h1 := C9_arena ⟨[], [], [], 0⟩ 100 ⟨3, 100, 256⟩
  have h2 := C9_arena ⟨[], [], [], 5⟩ 7 ⟨3, 100, 256⟩
  have h3 := C9_arena ⟨[], [], [], 5⟩ 70000 ⟨4, 70000, 70000⟩
  ⟨h1.1, (h2.2.2.1 (by decide)).1, (h2.2.2.1 (by decide)).2 (by decide),
    (h3.2.2.2.2.2.1 (by decide)).1, h3.2.2.2.2.2.2 (by decide)⟩

/-! ## Claim C10: the two backup/restore revisions agree -/

/-- C10: for every message and backup slot, the optimized backup and
restore of server_conn.go and the originals of part_000 agree on every
observable: key, value, header, and the contents of both extras
slices. -/
theorem C10_backup_restore_equiv (m b : msg) :
    (backupMsg m b).key = (backupMsgOrig m b).key ∧
    (backupMsg m b).val = (backupMsgOrig m b).val ∧
    (backupMsg m b).header = (backupMsgOrig m b).header ∧
    (backupMsg m b).iextras.data = (backupMsgOrig m b).iextras.data ∧
    (backupMsg m b).oextras.data = (backupMsgOrig m b).oextras.data ∧
    (restoreMsg m b).key = (restoreMsgOrig m b).key ∧
    (restoreMsg m b).val = (restoreMsgOrig m b).val ∧
    (restoreMsg m b).header = (restoreMsgOrig m b).header ∧
    (restoreMsg m b).iextras.data = (restoreMsgOrig m b).iextras.data ∧
    (restoreMsg m b).oextras.data = (restoreMsgOrig m b).oextras.data := by
  refine ⟨rfl, rfl, rfl, ?_, ?_, rfl, rfl, rfl, ?_, ?_⟩ <;>
    simp [backupMsg, backupMsgOrig, restoreMsg, restoreMsgOrig, copyInto_data,
      appendAll_data, goNil]

/-! ## Claim C7: truncated response bodies -/

/-- The header recv parses from the front of a stream (lines 323-332). -/
def recvHdr (stream : List Nat) : header := parseHeader (stream.take 24)

/-- The body recv reads: exactly BodyLen bytes following the header. -/
def recvBodyBytes (stream : List Nat) : List Nat :=
  (stream.drop 24).take (recvHdr stream).BodyLen

theorem recv_eq_recvBody (stream : List Nat) (m : msg)
    (hlen : 24 + (recvHdr stream).BodyLen ≤ stream.length) :
    recv stream m = recvBody { m with header := recvHdr stream } (recvBodyBytes stream)
      ((stream.drop 24).drop (recvHdr stream).BodyLen) := by
  simp only [recv, recvHdr, recvBodyBytes] at *
  rw [if_neg (by omega), if_neg (by simp only [List.length_drop]; omega)]

theorem recvBodyBytes_length (stream : List Nat)
    (hlen : 24 + (recvHdr stream).BodyLen ≤ stream.length) :
    (recvBodyBytes stream).length = (recvHdr stream).BodyLen := by
  simp only [recvBodyBytes, List.length_take, List.length_drop]
  omega

/-- C7: on a complete frame whose body is nevertheless too short for
its content — shorter than the combined widths of the (supported)
extras destinations when the status is success and the extras length is
positive, or leaving fewer bytes than the key length after the extras
segment (whether the extras segment was skipped or consumed cleanly) —
recv returns the wrapped network-class error instead of reading past
the end of the body. -/
theorem C7_truncated_recv (stream : List Nat) (m : msg)
    (hlen : 24 + (recvHdr stream).BodyLen ≤ stream.length) :
    ((recvHdr stream).ResvOrStatus = 0 → 0 < (recvHdr stream).ExtraLen →
      m.oextras.data.all supportedOut = true →
      (recvHdr stream).BodyLen < extrasWidthOut m.oextras.data →
      (recv stream m).err = some netErr) ∧
    ((recvHdr stream).ResvOrStatus ≠ 0 ∨ (recvHdr stream).ExtraLen = 0 →
      (recvHdr stream).BodyLen < (recvHdr stream).KeyLen →
      (recv stream m).err = some netErr) ∧
    ((recvHdr stream).ResvOrStatus = 0 → 0 < (recvHdr stream).ExtraLen →
      (recvHdr stream).ExtraLen ≤ (recvHdr stream).BodyLen →
      (readExtras ((recvBodyBytes stream).take (recvHdr stream).ExtraLen)
        m.oextras.data 0).2 = none →
      (recvHdr stream).BodyLen - (recvHdr stream).ExtraLen < (recvHdr stream).KeyLen →
      (recv stream m).err = some netErr) := by
  have hb := recvBodyBytes_length stream hlen
  have hre := recv_eq_recvBody stream m hlen
  refine ⟨?_, ?_, ?_⟩
  · intro hst hex hsup hlt
    rw [hre, recvBody]
    dsimp only
    rw [if_pos ⟨hst, hex⟩]
    by_cases hsh : (recvBodyBytes stream).length < (recvHdr stream).ExtraLen
    · rw [if_pos hsh]
    · rw [if_neg hsh]
      have hshort := readExtras_short m.oextras.data
        ((recvBodyBytes stream).take (recvHdr stream).ExtraLen) 0 hsup
        (by simp only [List.length_take]; omega) (by omega)
      rcases h2 : readExtras ((recvBodyBytes stream).take (recvHdr stream).ExtraLen)
          m.oextras.data 0 with ⟨ws, e2⟩
      rw [h2] at hshort
      simp only at hshort
      rw [hshort]
  · intro hor hlt
    rw [hre, recvBody]
    dsimp only
    rw [if_neg (by
      intro hc
      rcases hor with h | h
      · exact h hc.1
      · omega)]
    rw [recvKeyVal]
    dsimp only
    rw [if_pos (by omega)]
  · intro hst hex hle hnone hlt
    rw [hre, recvBody]
    dsimp only
    rw [if_pos ⟨hst, hex⟩, if_neg (by omega)]
    rcases h2 : readExtras ((recvBodyBytes stream).take (recvHdr stream).ExtraLen)
        m.oextras.data 0 with ⟨ws, e2⟩
    rw [h2] at hnone
    simp only at hnone
    subst hnone
    dsimp only
    rw [recvKeyVal]
    dsimp only
    rw [if_pos (by simp only [List.length_drop]; omega)]

def cexStream7 : List Nat := headerBytes ⟨0x81, 0, 0, 4, 0, 0, 2, 0, 0⟩ ++ [9, 9]

def cexMsg7 : msg :=
  { header := ⟨0, 0, 0, 0, 0, 0, 0, 0, 0⟩
    key := []
    val := []
    iextras := ⟨[], 0⟩
    oextras := ⟨[.p32 1], 0⟩ }

theorem C7_truncated_recv_witness :
    24 + (recvHdr cexStream7).BodyLen ≤ cexStream7.length ∧
    (recv cexStream7 cexMsg7).err = some netErr :=
  ⟨by decide,
    (C7_truncated_recv cexStream7 cexMsg7 (by decide)).1 (by decide) (by decide)
      (by decide) (by decide)⟩

/-! ## Claim C8: the stats collection loop -/

/-- Header of a well-formed stats response: success status, no extras,
the stat opcode. -/
def statsFrameHdr (k v : List Nat) : header :=
  ⟨magicRecv, 0x10, k.length, 0, 0, 0, k.length + v.length, 0, 0⟩

/-- One well-formed stats response frame: header, key and value. -/
def statsFrame (k v : List Nat) : List Nat :=
  headerBytes (statsFrameHdr k v) ++ (k ++ v)

/-- Header of a response with the given status word and empty body. -/
def statusFrameHdr (s : Nat) : header := ⟨magicRecv, 0x10, 0, 0, 0, s, 0, 0, 0⟩

/-- A response frame with the given status word and an empty body. -/
def statusFrame (s : Nat) : List Nat := headerBytes (statusFrameHdr s)

/-- The byte stream of a sequence of stats responses. -/
def framesOf : List (List Nat × List Nat) → List Nat
  | [] => []
  | (k, v) :: rest => statsFrame k v ++ framesOf rest

/-- Well-formed stats pairs: nonempty keys fitting the 16-bit key
length, bodies below the 32-bit body length. -/
def statsWF (pairs : List (List Nat × List Nat)) : Bool :=
  pairs.all fun p => !p.1.isEmpty && decide (p.1.length < 2 ^ 16) &&
    decide (p.1.length + p.2.length < 2 ^ 32)

theorem recv_statsFrame (k v tail : List Nat) (m : msg)
    (hk : k.length < 2 ^ 16) (hkv : k.length + v.length < 2 ^ 32) :
    recv (statsFrame k v ++ tail) m =
      ⟨{ m with header := normalizeHeader (statsFrameHdr k v), key := k, val := v },
        [], tail, none⟩ := by
  have hb : (k ++ v).length = (normalizeHeader (statsFrameHdr k v)).BodyLen := by
    simp [normalizeHeader, statsFrameHdr]
    omega
  rw [statsFrame, List.append_assoc, recv_frame _ _ _ _ hb]
  rw [recvBody, if_neg (by simp [normalizeHeader, statsFrameHdr])]
  rw [recvKeyVal_exact _ _ _ _ _ (by simp [normalizeHeader, statsFrameHdr]; omega)]
  simp [normalizeHeader, statsFrameHdr, newError, StatusOK]

theorem recv_statusFrame (s : Nat) (tail : List Nat) (m : msg)
    (hs : 0 < s) (hs16 : s < 2 ^ 16) :
    recv (statusFrame s ++ tail) m =
      ⟨{ m with header := normalizeHeader (statusFrameHdr s), key := [], val := [] },
        [], tail, some ⟨s⟩⟩ := by
  have heq : statusFrame s ++ tail =
      headerBytes (statusFrameHdr s) ++ (([] : List Nat) ++ tail) := by
    simp [statusFrame]
  rw [heq, recv_frame _ _ _ _ (by simp [normalizeHeader, statusFrameHdr])]
  rw [recvBody, if_neg (by simp [normalizeHeader, statusFrameHdr])]
  rw [recvKeyVal]
  rw [if_neg (by simp [normalizeHeader, statusFrameHdr])]
  simp [normalizeHeader, statusFrameHdr, newError, StatusOK, Nat.mod_eq_of_lt hs16]
  omega

theorem statsLoop_frames (pairs : List (List Nat × List Nat)) (st : ConnState) (m : msg)
    (stream : List Nat) (acc : McStats) (h : statsWF pairs = true) :
    ∃ m2 : msg, statsLoop st m (framesOf pairs ++ stream) acc =
      statsLoop st m2 stream (pairs.foldl (fun s2 p => statsInsert s2 p.1 p.2) acc) := by
  induction pairs generalizing m acc with
  | nil => exact ⟨m, rfl⟩
  | cons p rest ih =>
    obtain ⟨k, v⟩ := p
    rw [statsWF, List.all_cons, Bool.and_eq_true] at h
    obtain ⟨hp, hrest⟩ := h
    rw [Bool.and_eq_true, Bool.and_eq_true] at hp
    have hk0 : k ≠ [] := by simpa using hp.1.1
    have hk16 : k.length < 2 ^ 16 := by simpa using hp.1.2
    have hkv : k.length + v.length < 2 ^ 32 := by simpa using hp.2
    have hrecv := recv_statsFrame k v (framesOf rest ++ stream) m hk16 hkv
    rw [framesOf, List.append_assoc, statsLoop, hrecv]
    have hkl : (normalizeHeader (statsFrameHdr k v)).KeyLen ≠ 0 := by
      have hne : k.length ≠ 0 := fun hc => hk0 (List.length_eq_zero.mp hc)
      simp only [normalizeHeader, statsFrameHdr]
      omega
    simp only [Option.isSome_none, Bool.false_eq_true, dite_false, hkl, if_false]
    rw [← statsWF] at hrest
    obtain ⟨m2, hm2⟩ := ih _ (statsInsert acc k v) hrest
    exact ⟨m2, by rw [hm2]; rfl⟩

/-- C8: a stats exchange. sendRecvStats performs the send (whose
updated message seeds the loop) and then loops recv: each well-formed
response's key/value pair is accumulated into the result map until the
first zero-key-length response, which terminates the loop without being
recorded and without error or teardown; an exhausted stream (the
wrapped unexpected-EOF network error) aborts the loop, tears the
connection down and returns that error with the pairs accumulated so
far; a non-zero status response aborts the loop and returns that status
error without teardown. -/
theorem C8_stats (st : ConnState) (opq : Nat) (m : msg)
    (pairs : List (List Nat × List Nat)) (tail : List Nat) (s : Nat)
    (hwf : statsWF pairs = true) :
    (m.iextras.data.all supportedIn = true → ∀ stream : List Nat,
      sendRecvStats st opq m stream =
        .ok (statsLoop st (sentMsg opq m) stream []).1
          (statsLoop st (sentMsg opq m) stream []).2.1
          (statsLoop st (sentMsg opq m) stream []).2.2.1
          (statsLoop st (sentMsg opq m) stream []).2.2.2) ∧
    ((statsLoop st m (framesOf pairs ++ (statsFrame [] [] ++ tail)) []).1 = st ∧
      (statsLoop st m (framesOf pairs ++ (statsFrame [] [] ++ tail)) []).2.2.1 =
        pairs.foldl (fun s2 p => statsInsert s2 p.1 p.2) [] ∧
      (statsLoop st m (framesOf pairs ++ (statsFrame [] [] ++ tail)) []).2.2.2 = none) ∧
    ((statsLoop st m (framesOf pairs) []).1 = resetConn st netErr ∧
      (statsLoop st m (framesOf pairs) []).2.2.1 =
        pairs.foldl (fun s2 p => statsInsert s2 p.1 p.2) [] ∧
      (statsLoop st m (framesOf pairs) []).2.2.2 = some netErr) ∧
    (0 < s → s < 2 ^ 16 → s ≠ StatusNetworkError →
      (statsLoop st m (framesOf pairs ++ (statusFrame s ++ tail)) []).1 = st ∧
      (statsLoop st m (framesOf pairs ++ (statusFrame s ++ tail)) []).2.2.1 =
        pairs.foldl (fun s2 p => statsInsert s2 p.1 p.2) [] ∧
      (statsLoop st m (framesOf pairs ++ (statusFrame s ++ tail)) []).2.2.2 = some ⟨s⟩) := by
  refine ⟨?_, ?_, ?_, ?_⟩
  · intro hsup stream
    simp only [sendRecvStats, send_eq_of_supported opq m hsup]
  · obtain ⟨m2, hm2⟩ := statsLoop_frames pairs st m (statsFrame [] [] ++ tail) [] hwf
    rw [hm2]
    have hterm := recv_statsFrame [] [] tail m2 (by decide) (by decide)
    rw [statsLoop, hterm]
    simp [normalizeHeader, statsFrameHdr]
  · obtain ⟨m2, hm2⟩ := statsLoop_frames pairs st m [] [] hwf
    rw [← List.append_nil (framesOf pairs), hm2]
    have hempty : recv ([] : List Nat) m2 = ⟨m2, [], [], some netErr⟩ := rfl
    rw [statsLoop, hempty]
    simp
  · intro hs hs16 hsn
    obtain ⟨m2, hm2⟩ := statsLoop_frames pairs st m (statusFrame s ++ tail) [] hwf
    rw [hm2]
    have hstat := recv_statusFrame s tail m2 hs hs16
    rw [statsLoop, hstat]
    simp [resetConn, hsn]

def wMsg8 : msg :=
  { header := ⟨0, 0x10, 0, 0, 0, 0, 0, 0, 0⟩
    key := [115]
    val := []
    iextras := ⟨[], 0⟩
    oextras := ⟨[], 0⟩ }

theorem C8_stats_witness :
    statsWF [([97], [98])] = true ∧
    (statsLoop ⟨true, 0⟩ wMsg8 (framesOf [([97], [98])] ++ (statsFrame [] [] ++ [])) []).2.2.1 =
      [([97], [98])] ∧
    (statsLoop ⟨true, 0⟩ wMsg8 (framesOf [([97], [98])]) []).2.2.2 = some netErr :=
  have h := C8_stats ⟨true, 0⟩ 0 wMsg8 [([97], [98])] [] 1 (by decide)
  ⟨by decide, h.2.1.2.1, h.2.2.1.2.2⟩

end MC
